import Mathlib

/-!
A shallow embedding of the synthetic-image generator and simulated
acquisition sequencer of `microscope/testsuite/devices.py`, together
with theorems about the enable/trigger/fetch state machine, the random
error injection, and the image generator's shapes, value ranges and
persistent phase state.

Modelling conventions:
* Machine floating-point numbers are modelled as exact rationals `ℚ`
  (the code's arithmetic is verified in exact arithmetic).
* Python `random.randint(a, b)` draws from the closed interval `[a, b]`
  (both endpoints included); its support is modelled by `randintSupport`.
* `np.random.randint(low, high)` requires `low < high` and raises
  `ValueError` otherwise; raising is modelled by returning `none`.
* Raising an exception in `TestCamera._fetch_data` is modelled by the
  dedicated outcomes `FetchOutcome.notInit` (the `must_be_initialized`
  guard) and `FetchOutcome.err` (the injected `DeviceError`).
* Transcendental functions (`np.sin`, `np.cos`, `np.exp`), the random
  samples of the `noise` and `one_gaussian` strategies and the pixel
  values of the PIL glyph bitmap are modelled by an `Oracle` of
  unconstrained functions; no theorem below depends on their values.
-/

namespace Microscope

/-- State of `TestCamera` restricted to the fields the acquisition
sequencer reads or writes: `_initialized`, `_acquiring`, `_triggered`,
`_sent`, `_error_percent` and `_a_setting`. -/
structure Camera where
  initialized : Bool
  acquiring : Bool
  triggered : Nat
  sent : Nat
  errorPercent : Int
  aSetting : Int
  deriving DecidableEq

/-- The camera as built by `TestCamera.__init__`: not initialized, not
acquiring, no pending triggers, no frames sent, error rate 0,
`_a_setting = 0`. -/
def initCam : Camera := ⟨false, false, 0, 0, 0, 0⟩

/-- `TestCamera.initialize`: sets `self._initialized = True`. -/
def Camera.initDevice (c : Camera) : Camera := { c with initialized := true }

/-- `TestCamera.abort`: if `self._acquiring` then clear it; nothing else
is touched (in particular `_triggered` is left as it is). -/
def Camera.abort (c : Camera) : Camera :=
  if c.acquiring = true then { c with acquiring := false } else c

/-- `TestCamera._do_disable`: just calls `abort`. -/
def Camera.do_disable (c : Camera) : Camera := c.abort

/-- `TestCamera._do_enable` (guarded by `must_be_initialized`): aborts a
running acquisition, then sets `_acquiring = True` and `_sent = 0`.
`none` models the `DisabledDeviceError` of the guard. -/
def Camera.do_enable (c : Camera) : Option Camera :=
  if c.initialized = true then
    some { (if c.acquiring = true then c.abort else c) with
            acquiring := true, sent := 0 }
  else none

/-- `TestCamera._do_trigger`: increments `_triggered` when acquiring,
otherwise a no-op. -/
def Camera.do_trigger (c : Camera) : Camera :=
  if c.acquiring = true then { c with triggered := c.triggered + 1 } else c

/-- `TestCamera._set_error_percent`: stores the value and overwrites
`_a_setting` with `value // 10` (Python floor division, `Int.fdiv`). -/
def Camera.set_error_percent (c : Camera) (value : Int) : Camera :=
  { c with errorPercent := value, aSetting := Int.fdiv value 10 }

/-- Result of one call of `TestCamera._fetch_data`. -/
inductive FetchOutcome where
  | notInit
  | nothing (c : Camera)
  | err (c : Camera)
  | frame (index : Nat) (c : Camera)
  deriving DecidableEq

/-- `true` exactly on the `err` outcome (the injected `DeviceError`). -/
def FetchOutcome.isErr : FetchOutcome → Bool
  | .err _ => true
  | _ => false

/-- `true` exactly on the `nothing` outcome (Python returns `None`). -/
def FetchOutcome.isNothing : FetchOutcome → Bool
  | .nothing _ => true
  | _ => false

/-- `TestCamera._fetch_data`, with the result of `random.randint(0, 100)`
passed in as `draw`.  The code raises the simulated `DeviceError` before
touching `_triggered` or `_sent`, so the `err` outcome carries the state
unchanged; a successful fetch decrements `_triggered`, returns the image
labelled with the old `_sent` and then increments `_sent`. -/
def Camera.fetch_data (c : Camera) (draw : Nat) : FetchOutcome :=
  if c.initialized = true then
    if c.acquiring = true ∧ 0 < c.triggered then
      if (draw : Int) < c.errorPercent then .err c
      else .frame c.sent { c with triggered := c.triggered - 1, sent := c.sent + 1 }
    else .nothing c
  else .notInit

/-- Support of Python's `random.randint a b`: the closed interval
`[a, b]`, both endpoints included. -/
def randintSupport (a b : Nat) : Finset Nat := Finset.Icc a b

/-- `_do_enable` on an initialized camera sets `_acquiring` and resets
`_sent`, leaving every other field (notably `_triggered`) unchanged. -/
lemma do_enable_eq (c : Camera) (h : c.initialized = true) :
    c.do_enable = some { c with acquiring := true, sent := 0 } := by
  obtain ⟨ci, ca, ct, cs, ce, caa⟩ := c
  simp only [Camera.initialized] at h
  subst h
  cases ca <;> simp [Camera.do_enable, Camera.abort]

/-- `abort` clears the acquiring flag and changes nothing else. -/
lemma abort_eq (c : Camera) : c.abort = { c with acquiring := false } := by
  obtain ⟨ci, ca, ct, cs, ce, caa⟩ := c
  cases ca <;> rfl

/-- A fetchable fetch with a draw at or above the error rate returns a
frame labelled with the old `_sent`, consuming one pending trigger. -/
lemma fetch_data_frame (c : Camera) (d : Nat) (hi : c.initialized = true)
    (ha : c.acquiring = true) (ht : 0 < c.triggered)
    (hd : c.errorPercent ≤ (d : Int)) :
    c.fetch_data d =
      .frame c.sent { c with triggered := c.triggered - 1, sent := c.sent + 1 } := by
  unfold Camera.fetch_data
  rw [if_pos hi, if_pos ⟨ha, ht⟩, if_neg (not_lt.mpr hd)]

/-- A fetchable fetch with a draw below the error rate raises, leaving
the state unchanged. -/
lemma fetch_data_err (c : Camera) (d : Nat) (hi : c.initialized = true)
    (ha : c.acquiring = true) (ht : 0 < c.triggered)
    (hd : (d : Int) < c.errorPercent) :
    c.fetch_data d = .err c := by
  unfold Camera.fetch_data
  rw [if_pos hi, if_pos ⟨ha, ht⟩, if_pos hd]

/-- Claim C1 counterexample: from a freshly initialized camera,
enable → trigger → disable → re-enable → fetch does NOT return nothing:
it returns the frame owed from the pre-disable trigger (index 0), because
neither `abort` nor `_do_enable` clears `_triggered`. -/
theorem C1_cx :
    ((((initCam.initDevice.do_enable).map Camera.do_trigger).map
          Camera.do_disable).bind Camera.do_enable).map
        (fun cam => cam.fetch_data 0) =
      some (FetchOutcome.frame 0 ⟨true, true, 0, 1, 0, 0⟩) ∧
    (FetchOutcome.frame 0 ⟨true, true, 0, 1, 0, 0⟩).isNothing = false := by
  constructor <;> rfl

/-- Claim C1 (amended): pending triggers survive `disable`/`abort` and a
re-`enable`: starting from an initialized camera with no pending trigger,
after enable → trigger → disable → re-enable, a fetch whose random draw is
at or above the error rate returns the frame owed from the pre-disable
trigger (frame index 0). -/
theorem C1_thm (c : Camera) (d : Nat) (h : c.initialized = true)
    (ht : c.triggered = 0) (hd : c.errorPercent ≤ (d : Int)) :
    ((((c.do_enable).map Camera.do_trigger).map Camera.do_disable).bind
          Camera.do_enable).map (fun cam => cam.fetch_data d) =
      some (FetchOutcome.frame 0
        { c with acquiring := true, triggered := 0, sent := 1 }) := by
  obtain ⟨ci, ca, ct, cs, ce, caa⟩ := c
  simp only [Camera.initialized] at h
  simp only [Camera.triggered] at ht
  simp only [Camera.errorPercent] at hd
  subst h
  subst ht
  cases ca <;>
    simp [Camera.do_enable, Camera.abort, Camera.do_trigger, Camera.do_disable,
      Camera.fetch_data, not_lt.mpr hd]

/-- Claim C1 witness: the amended scenario evaluated on a concrete
freshly-initialized camera with error rate 0 and draw 0. -/
theorem C1_wit :
    ((((Camera.do_enable ⟨true, false, 0, 0, 0, 0⟩).map Camera.do_trigger).map
          Camera.do_disable).bind Camera.do_enable).map
        (fun cam => cam.fetch_data 0) =
      some (FetchOutcome.frame 0 ⟨true, true, 0, 1, 0, 0⟩) :=
  C1_thm ⟨true, false, 0, 0, 0, 0⟩ 0 rfl rfl (by decide)

/-- Claim C2 counterexample: enabling a camera that has a pending trigger
does not clear it: immediately after `_do_enable` the pending-trigger
count is still 1, not 0. -/
theorem C2_cx :
    Camera.do_enable ⟨true, false, 1, 5, 3, 0⟩ =
      some ⟨true, true, 1, 0, 3, 0⟩ ∧
    (⟨true, true, 1, 0, 3, 0⟩ : Camera).triggered ≠ 0 := by
  constructor
  · rfl
  · decide

/-- Claim C2 (amended): `_do_enable` on an initialized camera sets
`acquiring := true` and `sent := 0` but leaves the pending-trigger count
unchanged (it is not reset to 0). -/
theorem C2_thm (c : Camera) (h : c.initialized = true) :
    c.do_enable = some { c with acquiring := true, sent := 0 } ∧
    ({ c with acquiring := true, sent := 0 } : Camera).triggered = c.triggered :=
  ⟨do_enable_eq c h, rfl⟩

/-- Claim C2 witness: the amended statement on a concrete camera with one
pending trigger and a nonzero frame counter. -/
theorem C2_wit :
    Camera.do_enable ⟨true, false, 1, 5, 3, 0⟩ =
      some ⟨true, true, 1, 0, 3, 0⟩ ∧
    (⟨true, true, 1, 0, 3, 0⟩ : Camera).triggered =
      (⟨true, false, 1, 5, 3, 0⟩ : Camera).triggered :=
  C2_thm ⟨true, false, 1, 5, 3, 0⟩ rfl

/-- Claim C3 (confirmed): when the injected error fires inside
`_fetch_data`, the raise happens before any state mutation, so the state
is unchanged (`err` carries `c` itself: same `_triggered`, same `_sent`),
and the very same pending trigger is consumed by a later fetch whose draw
is at or above the error rate. -/
theorem C3_thm (c : Camera) (d d₂ : Nat) (hi : c.initialized = true)
    (ha : c.acquiring = true) (ht : 0 < c.triggered)
    (hd : (d : Int) < c.errorPercent) (hd₂ : c.errorPercent ≤ (d₂ : Int)) :
    c.fetch_data d = .err c ∧
    c.fetch_data d₂ =
      .frame c.sent { c with triggered := c.triggered - 1, sent := c.sent + 1 } :=
  ⟨fetch_data_err c d hi ha ht hd, fetch_data_frame c d₂ hi ha ht hd₂⟩

/-- Claim C3 witness: concrete camera with error rate 50, failing draw 0,
succeeding draw 99. -/
theorem C3_wit :
    (⟨true, true, 1, 0, 50, 0⟩ : Camera).fetch_data 0 =
      .err ⟨true, true, 1, 0, 50, 0⟩ ∧
    (⟨true, true, 1, 0, 50, 0⟩ : Camera).fetch_data 99 =
      .frame 0 ⟨true, true, 0, 1, 50, 0⟩ :=
  C3_thm ⟨true, true, 1, 0, 50, 0⟩ 0 99 rfl rfl (by decide) (by decide)
    (by decide)

/-- Claim C4 counterexample: `random.randint(0, 100)` is inclusive, so
100 is a possible draw, and with `error_rate_percent = 100` a fetchable
fetch with draw 100 does NOT raise: it returns a frame.  Hence the draw
is not taken from the half-open range `[0, 100)` and the error is not
raised for every possible draw. -/
theorem C4_cx :
    100 ∈ randintSupport 0 100 ∧
    (⟨true, true, 1, 0, 100, 10⟩ : Camera).fetch_data 100 =
      .frame 0 ⟨true, true, 0, 1, 100, 10⟩ ∧
    ((⟨true, true, 1, 0, 100, 10⟩ : Camera).fetch_data 100).isErr = false := by
  refine ⟨by decide, rfl, rfl⟩

/-- Claim C4 (amended): the error-injection draw ranges over the closed
interval `[0, 100]` (Python's `random.randint` is inclusive), and a
fetchable fetch raises iff the draw is strictly below
`error_rate_percent`; consequently with `error_rate_percent = 100` it
raises for every possible draw except 100. -/
theorem C4_thm (c : Camera) (d : Nat) (hi : c.initialized = true)
    (ha : c.acquiring = true) (ht : 0 < c.triggered)
    (hd : d ∈ randintSupport 0 100) :
    ((c.fetch_data d).isErr = true ↔ (d : Int) < c.errorPercent) ∧
    (c.errorPercent = 100 → ((c.fetch_data d).isErr = true ↔ d ≠ 100)) := by
  have hd100 : d ≤ 100 := by
    simpa [randintSupport] using hd
  have hmain : (c.fetch_data d).isErr = true ↔ (d : Int) < c.errorPercent := by
    unfold Camera.fetch_data
    rw [if_pos hi, if_pos ⟨ha, ht⟩]
    by_cases hlt : (d : Int) < c.errorPercent
    · simp [hlt, FetchOutcome.isErr]
    · simp [hlt, FetchOutcome.isErr]
  refine ⟨hmain, fun h100 => ?_⟩
  rw [hmain, h100]
  omega

/-- Claim C4 witness: with error rate 100 and the possible draw 99, the
fetch raises; both equivalences evaluated on a concrete camera. -/
theorem C4_wit :
    (((⟨true, true, 1, 0, 100, 10⟩ : Camera).fetch_data 99).isErr = true ↔
      ((99 : Nat) : Int) < (⟨true, true, 1, 0, 100, 10⟩ : Camera).errorPercent) ∧
    ((⟨true, true, 1, 0, 100, 10⟩ : Camera).errorPercent = 100 →
      (((⟨true, true, 1, 0, 100, 10⟩ : Camera).fetch_data 99).isErr = true ↔
        (99 : Nat) ≠ 100)) :=
  C4_thm ⟨true, true, 1, 0, 100, 10⟩ 99 rfl rfl (by decide) (by decide)

/-- Claim C9 (confirmed): `_set_error_percent` stores the value and also
overwrites `_a_setting` with `value // 10` (floor division), regardless
of the previously stored `_a_setting`; the two settings are coupled. -/
theorem C9_thm (c : Camera) (v : Int) :
    (c.set_error_percent v).errorPercent = v ∧
    (c.set_error_percent v).aSetting = Int.fdiv v 10 :=
  ⟨rfl, rfl⟩

/-- Python/numpy `%` on reals: `x % y = x - y * ⌊x / y⌋` (the result has
the sign of `y`).  For `y = 0` numpy yields `nan`; this model then
returns `x` (the value is irrelevant to every theorem below). -/
def pymod (x y : ℚ) : ℚ := x - y * ⌊x / y⌋

/-- `_theta_generator`: starts at 0 and on each step adds `0.01 * TWOPI`
and reduces mod `TWOPI`.  The angle is modelled in exact arithmetic with
the positive constant `2π` passed in as `twopi`; `thetaSeq twopi n` is
the angle yielded to the `(n+1)`-th `next(...)` call. -/
def thetaSeq (twopi : ℚ) : Nat → ℚ
  | 0 => 0
  | n + 1 => pymod (thetaSeq twopi n + 1 / 100 * twopi) twopi

lemma pymod_of_lt (x y : ℚ) (h0 : 0 ≤ x) (h1 : x < y) : pymod x y = x := by
  have hy : 0 < y := lt_of_le_of_lt h0 h1
  have hfl : ⌊x / y⌋ = 0 := by
    rw [Int.floor_eq_zero_iff]
    exact ⟨div_nonneg h0 hy.le, by rwa [div_lt_one hy]⟩
  simp [pymod, hfl]

lemma pymod_self (y : ℚ) (hy : y ≠ 0) : pymod y y = 0 := by
  simp [pymod, div_self hy]

/-- Closed form of the phase sequence: after `n` steps the angle is
`(n mod 100) / 100` of a full turn. -/
lemma thetaSeq_closed (twopi : ℚ) (hpos : 0 < twopi) (n : Nat) :
    thetaSeq twopi n = ((n % 100 : Nat) : ℚ) * twopi / 100 := by
  induction n with
  | zero => simp [thetaSeq]
  | succ n ih =>
    rw [thetaSeq, ih]
    have hklt : n % 100 < 100 := Nat.mod_lt _ (by norm_num)
    have hsum : ((n % 100 : Nat) : ℚ) * twopi / 100 + 1 / 100 * twopi =
        (((n % 100 : Nat) : ℚ) + 1) * twopi / 100 := by ring
    rw [hsum]
    by_cases hcase : n % 100 + 1 < 100
    · have hmod : (n + 1) % 100 = n % 100 + 1 := by omega
      rw [hmod]
      have h0 : (0 : ℚ) ≤ (((n % 100 : Nat) : ℚ) + 1) * twopi / 100 := by
        positivity
      have hlt : (((n % 100 : Nat) : ℚ) + 1) * twopi / 100 < twopi := by
        rw [div_lt_iff₀ (by norm_num : (0 : ℚ) < 100)]
        have hc : ((n % 100 : Nat) : ℚ) + 1 < 100 := by exact_mod_cast hcase
        nlinarith
      rw [pymod_of_lt _ _ h0 hlt]
      push_cast
      ring
    · have hk99 : n % 100 = 99 := by omega
      have hmod : (n + 1) % 100 = 0 := by omega
      rw [hmod, hk99]
      have hEq : (((99 : Nat) : ℚ) + 1) * twopi / 100 = twopi := by
        norm_num
      rw [hEq, pymod_self _ (ne_of_gt hpos)]
      simp

/-- Claim C8 (confirmed): the phase angle owned by the generator advances
by exactly `0.01 * 2π` on each call, wrapping mod `2π`, and the state
persists across calls: the angle of the `(n+1)`-th call is obtained from
the angle of the `n`-th call, with closed form `(n mod 100)/100 · 2π`. -/
theorem C8_thm (twopi : ℚ) (n : Nat) (hpos : 0 < twopi) :
    thetaSeq twopi (n + 1) =
      pymod (thetaSeq twopi n + 1 / 100 * twopi) twopi ∧
    thetaSeq twopi n = ((n % 100 : Nat) : ℚ) * twopi / 100 :=
  ⟨rfl, thetaSeq_closed twopi hpos n⟩

/-- Claim C8 witness: the step relation and closed form evaluated at the
fourth call with the full turn normalised to 1. -/
theorem C8_wit :
    thetaSeq 1 (3 + 1) = pymod (thetaSeq 1 3 + 1 / 100 * 1) 1 ∧
    thetaSeq 1 3 = ((3 % 100 : Nat) : ℚ) * 1 / 100 :=
  C8_thm 1 3 (by norm_num)

/-- Unconstrained stand-ins for the library functions used by the
strategies: `rnd x y` is the sample `np.random.randint(dark, light)`
drawn at pixel `(x, y)` of `noise`; `expv x y` the value of
`np.exp(-((x-x0)^2+(y-y0)^2)/(2σ²))` in `one_gaussian`; `sinv`/`cosv`
are `np.sin`/`np.cos`; `glyph x y` is the pixel of the PIL glyph bitmap
pasted by the numbering overlay. -/
structure Oracle where
  rnd : Nat → Nat → Int
  expv : Nat → Nat → ℚ
  sinv : ℚ → ℚ
  cosv : ℚ → ℚ
  glyph : Nat → Nat → ℚ

/-- The all-zero oracle, used to evaluate the model on concrete inputs. -/
def oZero : Oracle :=
  ⟨fun _ _ => 0, fun _ _ => 0, fun _ => 0, fun _ => 0, fun _ _ => 0⟩

/-- A `h × w` array built from a pixel function, row-major like the
numpy arrays produced via `np.meshgrid(range(w), range(h))`. -/
def mkImg (w h : Nat) (f : Nat → Nat → ℚ) : List (List ℚ) :=
  (List.range h).map fun y => (List.range w).map fun x => f x y

/-- `self._datatypes = (np.uint8, np.uint16, np.float)`: the max value
used by `white` (`np.iinfo(d).max` for the integer types, `1.0` for
float). -/
def dtypeMax : Nat → ℚ
  | 0 => 255
  | 1 => 65535
  | _ => 1

/-- `_ImageGenerator.black`: `np.zeros((h, w))`, ignoring dark/light. -/
def black (w h : Nat) : List (List ℚ) := mkImg w h fun _ _ => 0

/-- `_ImageGenerator.white`: the max representable value of the current
data type, everywhere. -/
def white (dIdx w h : Nat) : List (List ℚ) :=
  mkImg w h fun _ _ => dtypeMax dIdx

/-- `_ImageGenerator.gradient`:
`dark + light * (xx + yy) / (xx.max() + yy.max())`.
`xx.max()` on an empty grid raises (`none`); for `w = h = 1` the code
divides 0 by 0 producing `nan` — the model then yields `dark` (division
by zero is 0 in `ℚ`), and no theorem below constrains that case. -/
def gradient (w h : Nat) (dark light : Int) : Option (List (List ℚ)) :=
  if w = 0 ∨ h = 0 then none
  else some (mkImg w h fun x y =>
    (dark : ℚ) + (light : ℚ) * ((x : ℚ) + (y : ℚ)) /
      (((w - 1 : Nat) : ℚ) + ((h - 1 : Nat) : ℚ)))

/-- `_ImageGenerator.noise`: `np.random.randint(dark, light, size=(h,w))`,
which raises `ValueError` unless `dark < light`. -/
def noise (o : Oracle) (w h : Nat) (dark light : Int) :
    Option (List (List ℚ)) :=
  if dark < light then some (mkImg w h fun x y => ((o.rnd x y : Int) : ℚ))
  else none

/-- `_ImageGenerator.one_gaussian`: `dark + light * exp(...)` around a
random centre; `np.random.randint(w)` raises when `w = 0` (or `h = 0`). -/
def one_gaussian (o : Oracle) (w h : Nat) (dark light : Int) :
    Option (List (List ℚ)) :=
  if w = 0 ∨ h = 0 then none
  else some (mkImg w h fun x y => (dark : ℚ) + (light : ℚ) * o.expv x y)

/-- `_ImageGenerator.sawtooth`: a ramp rotating with the phase `th`,
`dark + light * ((sin th * xx + cos th * yy) % wrap) / wrap` with
`wrap = 0.1 * max(xx.max(), yy.max())`; `xx.max()` on an empty grid
raises (`none`). -/
def sawtooth (o : Oracle) (th : ℚ) (w h : Nat) (dark light : Int) :
    Option (List (List ℚ)) :=
  if w = 0 ∨ h = 0 then none
  else some (mkImg w h fun x y =>
    (dark : ℚ) + (light : ℚ) *
      pymod (o.sinv th * (x : ℚ) + o.cosv th * (y : ℚ))
        ((1 / 10) * max ((w - 1 : Nat) : ℚ) ((h - 1 : Nat) : ℚ)) /
      ((1 / 10) * max ((w - 1 : Nat) : ℚ) ((h - 1 : Nat) : ℚ)))

/-- Mutable state of `_ImageGenerator`: the selected method index, the
selected data-type index, how many angles the `_theta` generator has
yielded so far, and the numbering flag. -/
structure Gen where
  methodIndex : Nat
  datatypeIndex : Nat
  thetaCalls : Nat
  numbering : Bool
  deriving DecidableEq

/-- Dispatch of `m = self._methods[self._method_index]` followed by
`m(width, height, dark, light)`.  The tuple order is
`(noise, gradient, sawtooth, one_gaussian, black, white)`; only the
`sawtooth` branch consumes a value from the `_theta` generator (second
component: the updated count of consumed angles).  An out-of-range index
raises `IndexError` (`none`). -/
def strategyRun (o : Oracle) (twopi : ℚ) (g : Gen) (w h : Nat)
    (dark light : Int) : Option (List (List ℚ)) × Nat :=
  if g.methodIndex = 0 then (noise o w h dark light, g.thetaCalls)
  else if g.methodIndex = 1 then (gradient w h dark light, g.thetaCalls)
  else if g.methodIndex = 2 then
    (sawtooth o (thetaSeq twopi g.thetaCalls) w h dark light,
      g.thetaCalls + 1)
  else if g.methodIndex = 3 then (one_gaussian o w h dark light, g.thetaCalls)
  else if g.methodIndex = 4 then (some (black w h), g.thetaCalls)
  else if g.methodIndex = 5 then
    (some (white g.datatypeIndex w h), g.thetaCalls)
  else (none, g.thetaCalls)

/-- `astype(d)` on a nonnegative float value: `uint8`/`uint16` truncate
and wrap modulo `2^8`/`2^16` (C-style conversion); float is the
identity. -/
def castVal (dIdx : Nat) (q : ℚ) : ℚ :=
  match dIdx with
  | 0 => ((⌊q⌋ % 256 : Int) : ℚ)
  | 1 => ((⌊q⌋ % 65536 : Int) : ℚ)
  | _ => q

/-- Number of decimal digits of the frame index, the length of the text
`"%d" % index`. -/
def decimalDigits (n : Nat) : Nat := (Nat.toDigits 10 n).length

/-- Per-digit glyph width of PIL's `ImageFont.load_default()`:
`font.getsize("%d" % n)` is `(6 * digits, 11)`. -/
def fontW : Nat := 6

/-- Glyph height of PIL's `ImageFont.load_default()`. -/
def fontH : Nat := 11

/-- `data[0:th, 0:tw] = glyph`: overwrite the top-left `th × tw` block of
the frame with the glyph bitmap. -/
def overlayImg (data : List (List ℚ)) (tw th : Nat) (gl : Nat → Nat → ℚ) :
    List (List ℚ) :=
  (List.range data.length).map fun y =>
    (List.range (data.getD y []).length).map fun x =>
      if y < th ∧ x < tw then gl x y else (data.getD y []).getD x 0

/-- `_ImageGenerator.get_image`: run the selected strategy, cast the
result to the selected data type, and if numbering is on and an index was
supplied, paste the rendered counter (text box =
`(fontW * digits + 2, fontH + 2)`, glyph bitmap cast on assignment) into
the top-left corner — which raises (`none`) when the frame cannot hold
the text box (numpy broadcast error).  The second component is the
generator state afterwards (only the theta counter can change). -/
def get_image (o : Oracle) (twopi : ℚ) (g : Gen) (w h : Nat)
    (dark light : Int) (index : Option Nat) :
    Option (List (List ℚ)) × Gen :=
  ( match (strategyRun o twopi g w h dark light).1 with
    | none => none
    | some img =>
      match index with
      | some i =>
        if g.numbering then
          if fontH + 2 ≤ h ∧ fontW * decimalDigits i + 2 ≤ w then
            some (overlayImg (img.map (List.map (castVal g.datatypeIndex)))
              (fontW * decimalDigits i + 2) (fontH + 2)
              (fun x y => castVal g.datatypeIndex (o.glyph x y)))
          else none
        else some (img.map (List.map (castVal g.datatypeIndex)))
      | none => some (img.map (List.map (castVal g.datatypeIndex)))
  , { g with thetaCalls := (strategyRun o twopi g w h dark light).2 } )

/-- The array has `h` rows, each of length `w`. -/
def HasShape (img : List (List ℚ)) (h w : Nat) : Prop :=
  img.length = h ∧ ∀ row ∈ img, row.length = w

/-- Every pixel of the array satisfies `P`. -/
def AllPix (P : ℚ → Prop) (img : List (List ℚ)) : Prop :=
  ∀ row ∈ img, ∀ v ∈ row, P v

lemma hasShape_mkImg (w h : Nat) (f : Nat → Nat → ℚ) :
    HasShape (mkImg w h f) h w := by
  refine ⟨by simp [mkImg], ?_⟩
  intro row hr
  simp only [mkImg, List.mem_map, List.mem_range] at hr
  obtain ⟨y, _, rfl⟩ := hr
  simp

lemma hasShape_map (img : List (List ℚ)) (hh ww : Nat) (f : ℚ → ℚ)
    (hs : HasShape img hh ww) :
    HasShape (img.map (List.map f)) hh ww := by
  obtain ⟨h1, h2⟩ := hs
  refine ⟨by simpa using h1, ?_⟩
  intro row hr
  simp only [List.mem_map] at hr
  obtain ⟨r0, hr0, rfl⟩ := hr
  simpa using h2 r0 hr0

lemma hasShape_overlay (data : List (List ℚ)) (hh ww tw th : Nat)
    (gl : Nat → Nat → ℚ) (hs : HasShape data hh ww) :
    HasShape (overlayImg data tw th gl) hh ww := by
  obtain ⟨h1, h2⟩ := hs
  refine ⟨by simp [overlayImg, h1], ?_⟩
  intro row hr
  simp only [overlayImg, List.mem_map, List.mem_range] at hr
  obtain ⟨y, hy, rfl⟩ := hr
  have hmem : data.getD y [] ∈ data := by
    rw [List.getD_eq_getElem data [] hy]
    exact List.getElem_mem hy
  simp only [List.length_map, List.length_range]
  exact h2 _ hmem

lemma allPix_mkImg (P : ℚ → Prop) (w h : Nat) (f : Nat → Nat → ℚ)
    (hf : ∀ x, x < w → ∀ y, y < h → P (f x y)) :
    AllPix P (mkImg w h f) := by
  intro row hr v hv
  simp only [mkImg, List.mem_map, List.mem_range] at hr
  obtain ⟨y, hy, rfl⟩ := hr
  simp only [List.mem_map, List.mem_range] at hv
  obtain ⟨x, hx, rfl⟩ := hv
  exact hf x hx y hy

lemma allPix_map (P : ℚ → Prop) (img : List (List ℚ)) (f : ℚ → ℚ)
    (hf : ∀ q, P (f q)) :
    AllPix P (img.map (List.map f)) := by
  intro row hr v hv
  simp only [List.mem_map] at hr
  obtain ⟨r0, _, rfl⟩ := hr
  simp only [List.mem_map] at hv
  obtain ⟨q, _, rfl⟩ := hv
  exact hf q

lemma allPix_overlay (P : ℚ → Prop) (data : List (List ℚ)) (tw th : Nat)
    (gl : Nat → Nat → ℚ) (hdata : AllPix P data)
    (hgl : ∀ x y, P (gl x y)) :
    AllPix P (overlayImg data tw th gl) := by
  intro row hr v hv
  simp only [overlayImg, List.mem_map, List.mem_range] at hr
  obtain ⟨y, hy, rfl⟩ := hr
  simp only [List.mem_map, List.mem_range] at hv
  obtain ⟨x, hx, rfl⟩ := hv
  by_cases hcond : y < th ∧ x < tw
  · simp only [hcond, if_true]
    exact hgl x y
  · simp only [hcond, if_false]
    have hrowmem : data.getD y [] ∈ data := by
      rw [List.getD_eq_getElem data [] hy]
      exact List.getElem_mem hy
    have hvmem : (data.getD y []).getD x 0 ∈ data.getD y [] := by
      rw [List.getD_eq_getElem _ 0 hx]
      exact List.getElem_mem hx
    exact hdata _ hrowmem _ hvmem

lemma castVal_u8 (q : ℚ) : 0 ≤ castVal 0 q ∧ castVal 0 q ≤ 255 := by
  have h0 : 0 ≤ ⌊q⌋ % 256 := Int.emod_nonneg _ (by norm_num)
  have h1 : ⌊q⌋ % 256 < 256 := Int.emod_lt_of_pos _ (by norm_num)
  constructor
  · show (0 : ℚ) ≤ ((⌊q⌋ % 256 : Int) : ℚ)
    exact_mod_cast h0
  · show ((⌊q⌋ % 256 : Int) : ℚ) ≤ 255
    have h2 : ⌊q⌋ % 256 ≤ 255 := by omega
    exact_mod_cast h2

lemma castVal_u16 (q : ℚ) : 0 ≤ castVal 1 q ∧ castVal 1 q ≤ 65535 := by
  have h0 : 0 ≤ ⌊q⌋ % 65536 := Int.emod_nonneg _ (by norm_num)
  have h1 : ⌊q⌋ % 65536 < 65536 := Int.emod_lt_of_pos _ (by norm_num)
  constructor
  · show (0 : ℚ) ≤ ((⌊q⌋ % 65536 : Int) : ℚ)
    exact_mod_cast h0
  · show ((⌊q⌋ % 65536 : Int) : ℚ) ≤ 65535
    have h2 : ⌊q⌋ % 65536 ≤ 65535 := by omega
    exact_mod_cast h2

/-- Whatever strategy produced it, a successfully generated raw array has
`h` rows of length `w`. -/
lemma strategyRun_fst_shape (o : Oracle) (twopi : ℚ) (g : Gen) (w h : Nat)
    (dark light : Int) (pre : List (List ℚ))
    (hpre : (strategyRun o twopi g w h dark light).1 = some pre) :
    HasShape pre h w := by
  unfold strategyRun noise gradient sawtooth one_gaussian black white at hpre
  split_ifs at hpre <;>
    simp only [Option.some.injEq] at hpre <;>
    (subst hpre; exact hasShape_mkImg _ _ _)

/-- A strategy dispatch with a valid index on a nonempty grid succeeds
iff it is not `noise` with `dark ≥ light`. -/
lemma strategyRun_isSome_iff (o : Oracle) (twopi : ℚ) (g : Gen) (w h : Nat)
    (dark light : Int) (hm : g.methodIndex < 6) (hw : 1 ≤ w) (hh : 1 ≤ h) :
    ((strategyRun o twopi g w h dark light).1).isSome = true ↔
      (g.methodIndex = 0 → dark < light) := by
  have hwh : ¬(w = 0 ∨ h = 0) := by omega
  obtain ⟨m, dt, tc, nb⟩ := g
  simp only [Gen.methodIndex] at hm ⊢
  interval_cases m
  · by_cases hdl : dark < light <;>
      simp [strategyRun, noise, hdl]
  · simp [strategyRun, gradient, hwh]
  · simp [strategyRun, sawtooth, hwh]
  · simp [strategyRun, one_gaussian, hwh]
  · simp [strategyRun]
  · simp [strategyRun]

/-- Pixel bounds of the `gradient` ramp on a grid with a nonzero
denominator: every exact value lies in `[dark, dark + light]`. -/
lemma gradient_pix_bounds (w h : Nat) (dark light : Int) (hw : 1 ≤ w)
    (hh : 1 ≤ h) (hwh : 3 ≤ w + h) (hlight : 0 < light) :
    ∀ x, x < w → ∀ y, y < h →
      (dark : ℚ) ≤ (dark : ℚ) + (light : ℚ) * ((x : ℚ) + (y : ℚ)) /
          (((w - 1 : Nat) : ℚ) + ((h - 1 : Nat) : ℚ)) ∧
      (dark : ℚ) + (light : ℚ) * ((x : ℚ) + (y : ℚ)) /
          (((w - 1 : Nat) : ℚ) + ((h - 1 : Nat) : ℚ)) ≤
        (dark : ℚ) + (light : ℚ) := by
  obtain ⟨a, rfl⟩ : ∃ a, w = a + 1 := ⟨w - 1, by omega⟩
  obtain ⟨b, rfl⟩ : ∃ b, h = b + 1 := ⟨h - 1, by omega⟩
  intro x hx y hy
  simp only [Nat.add_sub_cancel]
  have hab : 1 ≤ a + b := by omega
  have hD0 : (0 : ℚ) < (a : ℚ) + (b : ℚ) := by
    have h1 : (1 : ℚ) ≤ ((a + b : Nat) : ℚ) := by exact_mod_cast hab
    push_cast at h1
    linarith
  have hnum0 : (0 : ℚ) ≤ (x : ℚ) + (y : ℚ) := by positivity
  have hnum1 : (x : ℚ) + (y : ℚ) ≤ (a : ℚ) + (b : ℚ) := by
    have hxa : x ≤ a := by omega
    have hyb : y ≤ b := by omega
    have := Nat.add_le_add hxa hyb
    exact_mod_cast this
  have hl : (0 : ℚ) ≤ (light : ℚ) := by exact_mod_cast hlight.le
  constructor
  · have hpos : 0 ≤ (light : ℚ) * ((x : ℚ) + (y : ℚ)) / ((a : ℚ) + (b : ℚ)) :=
      div_nonneg (mul_nonneg hl hnum0) hD0.le
    linarith
  · have hfrac : (light : ℚ) * ((x : ℚ) + (y : ℚ)) / ((a : ℚ) + (b : ℚ)) ≤
        (light : ℚ) := by
      rw [div_le_iff₀ hD0]
      exact mul_le_mul_of_nonneg_left hnum1 hl
    linarith

/-- Claim C5 counterexample: `gradient` with the in-range bounds
`dark = 31`, `light = 255` on a 2×2 frame produces the exact value
`31 + 255 = 286 > 255` at the bottom-right pixel, so the `uint8` output
contains the overflow-wrapped value `30` — values are NOT all unwrapped
representations of the generated intensities. -/
theorem C5_cx :
    (strategyRun oZero 1 ⟨1, 0, 0, true⟩ 2 2 31 255).1 =
      some [[31, 317 / 2], [317 / 2, 286]] ∧
    (get_image oZero 1 ⟨1, 0, 0, true⟩ 2 2 31 255 none).1 =
      some [[31, 158], [158, 30]] ∧
    castVal 0 286 = 30 ∧ ¬((286 : ℚ) ≤ 255) := by
  refine ⟨?_, ?_, ?_, by norm_num⟩
  · norm_num [strategyRun, gradient, mkImg, List.range_succ]
  · norm_num [get_image, strategyRun, gradient, mkImg, List.range_succ,
      castVal]
  · norm_num [castVal]

/-- Claim C5 (amended): for every strategy and output type on a `w×h`
request with `w, h ≥ 1` and in-range dark/light, any successfully
generated image has shape exactly `(h, w)` and, for the unsigned output
types, all values lie in the type's range after the wrapping cast; the
cast may wrap, since the exact `gradient` values span
`[dark, dark + light]`, which exceeds 255 for in-range bounds. -/
theorem C5_thm (o : Oracle) (twopi : ℚ) (g : Gen) (w h : Nat)
    (dark light : Int) (idx : Option Nat) (img pre : List (List ℚ))
    (tc : Nat) (hm : g.methodIndex < 6) (hw : 1 ≤ w) (hh : 1 ≤ h)
    (hd0 : 0 ≤ dark) (hd1 : dark < 32) (hl0 : 127 < light)
    (hl1 : light ≤ 255)
    (himg : (get_image o twopi g w h dark light idx).1 = some img)
    (hpre : strategyRun o twopi g w h dark light = (some pre, tc)) :
    HasShape img h w ∧
    (g.datatypeIndex = 0 → AllPix (fun v => 0 ≤ v ∧ v ≤ 255) img) ∧
    (g.datatypeIndex = 1 → AllPix (fun v => 0 ≤ v ∧ v ≤ 65535) img) ∧
    ((get_image o twopi g w h dark light none).1).isSome = true ∧
    (g.methodIndex = 1 → 3 ≤ w + h →
      AllPix (fun v => (dark : ℚ) ≤ v ∧ v ≤ (dark : ℚ) + (light : ℚ)) pre) := by
  have h1 : (strategyRun o twopi g w h dark light).1 = some pre := by
    rw [hpre]
  have hshape_pre : HasShape pre h w :=
    strategyRun_fst_shape o twopi g w h dark light pre h1
  have hcases : img = pre.map (List.map (castVal g.datatypeIndex)) ∨
      ∃ tw th, img =
        overlayImg (pre.map (List.map (castVal g.datatypeIndex))) tw th
          (fun x y => castVal g.datatypeIndex (o.glyph x y)) := by
    simp only [get_image, h1] at himg
    rcases idx with _ | i
    · exact Or.inl (by simpa using himg.symm)
    · by_cases hnb : g.numbering
      · by_cases hcond : fontH + 2 ≤ h ∧ fontW * decimalDigits i + 2 ≤ w
        · simp only [hnb, if_true, hcond] at himg
          exact Or.inr ⟨_, _, (by simpa using himg.symm)⟩
        · simp [hnb, hcond] at himg
      · simp only [hnb] at himg
        simp only [Bool.false_eq_true, if_false, Option.some.injEq] at himg
        exact Or.inl himg.symm
  have hshape : HasShape img h w := by
    rcases hcases with rfl | ⟨tw, th, rfl⟩
    · exact hasShape_map pre h w _ hshape_pre
    · exact hasShape_overlay _ h w tw th _ (hasShape_map pre h w _ hshape_pre)
  have hrange : ∀ (P : ℚ → Prop),
      (∀ q, P (castVal g.datatypeIndex q)) → AllPix P img := by
    intro P hP
    rcases hcases with rfl | ⟨tw, th, rfl⟩
    · exact allPix_map P pre _ hP
    · exact allPix_overlay P _ tw th _ (allPix_map P pre _ hP)
        fun x y => hP (o.glyph x y)
  refine ⟨hshape, ?_, ?_, ?_, ?_⟩
  · intro hdt
    exact hrange _ fun q => by rw [hdt]; exact castVal_u8 q
  · intro hdt
    exact hrange _ fun q => by rw [hdt]; exact castVal_u16 q
  · simp [get_image, h1]
  · intro hm1 hwh3
    have hpre1 : gradient w h dark light = some pre := by
      have := hpre
      simp only [strategyRun, hm1] at this
      norm_num at this
      exact this.1
    have hwh : ¬(w = 0 ∨ h = 0) := by omega
    simp only [gradient, hwh, if_false, Option.some.injEq] at hpre1
    subst hpre1
    exact allPix_mkImg _ w h _ fun x hx y hy =>
      gradient_pix_bounds w h dark light hw hh hwh3 (by omega) x hx y hy

/-- Claim C5 witness: the `gradient`/`uint16` instance on a 2×2 frame
with `dark = 31`, `light = 255`: shape `(2,2)`, cast values in range,
and exact values in `[31, 286]`. -/
theorem C5_wit :
    HasShape [[31, 158], [158, 286]] 2 2 ∧
    ((⟨1, 1, 0, true⟩ : Gen).datatypeIndex = 0 →
      AllPix (fun v => 0 ≤ v ∧ v ≤ 255) [[31, 158], [158, 286]]) ∧
    ((⟨1, 1, 0, true⟩ : Gen).datatypeIndex = 1 →
      AllPix (fun v => 0 ≤ v ∧ v ≤ 65535) [[31, 158], [158, 286]]) ∧
    ((get_image oZero 1 ⟨1, 1, 0, true⟩ 2 2 31 255 none).1).isSome = true ∧
    ((⟨1, 1, 0, true⟩ : Gen).methodIndex = 1 → 3 ≤ 2 + 2 →
      AllPix (fun v => (((31 : Int)) : ℚ) ≤ v ∧
        v ≤ (((31 : Int)) : ℚ) + (((255 : Int)) : ℚ))
        [[31, 317 / 2], [317 / 2, 286]]) :=
  C5_thm oZero 1 ⟨1, 1, 0, true⟩ 2 2 31 255 none [[31, 158], [158, 286]]
    [[31, 317 / 2], [317 / 2, 286]] 0 (by decide) (by decide) (by decide)
    (by decide) (by decide) (by decide) (by decide)
    (by norm_num [get_image, strategyRun, gradient, mkImg, List.range_succ,
      castVal])
    (by norm_num [strategyRun, gradient, mkImg, List.range_succ])

/-- Claim C6 counterexample: the `noise` strategy crashes on
`dark > light` (here `dark = 1 > 0 = light`): `np.random.randint`
requires `low < high`, so generation raises instead of returning an
array. -/
theorem C6_cx :
    (strategyRun oZero 1 ⟨0, 0, 0, true⟩ 1 1 1 0).1 = none := by
  decide

/-- Claim C6 (amended): on a `w×h` request with `w, h ≥ 1` and
`dark > light`, generation succeeds iff the selected strategy is not
`noise` (method index 0): the five other strategies do not crash, while
`noise` raises `ValueError`. -/
theorem C6_thm (o : Oracle) (twopi : ℚ) (g : Gen) (w h : Nat)
    (dark light : Int) (hm : g.methodIndex < 6) (hw : 1 ≤ w) (hh : 1 ≤ h)
    (hdl : light < dark) :
    ((strategyRun o twopi g w h dark light).1).isSome = true ↔
      g.methodIndex ≠ 0 := by
  rw [strategyRun_isSome_iff o twopi g w h dark light hm hw hh]
  constructor
  · intro himp h0
    exact absurd (himp h0) (lt_asymm hdl)
  · intro hne h0
    exact absurd h0 hne

/-- Claim C6 witness: with `dark = 1 > 0 = light`, the `gradient`
strategy (index 1) still succeeds. -/
theorem C6_wit :
    ((strategyRun oZero 1 ⟨1, 0, 0, true⟩ 1 1 1 0).1).isSome = true ↔
      (⟨1, 0, 0, true⟩ : Gen).methodIndex ≠ 0 :=
  C6_thm oZero 1 ⟨1, 0, 0, true⟩ 1 1 1 0 (by decide) (by decide) (by decide)
    (by decide)

/-- Claim C7 counterexample: with numbering enabled and a frame index
supplied, a 1×1 request raises: the glyph box of the rendered counter
(8×13 for one digit under PIL's default font) does not fit into the
frame and the numpy paste fails — `get_image` is not total on all
`w, h ≥ 1`. -/
theorem C7_cx :
    (get_image oZero 1 ⟨4, 0, 0, true⟩ 1 1 0 255 (some 0)).1 = none := by
  decide

/-- Claim C7 (amended): for every strategy (with `dark < light`, so
`noise` cannot fail) and `w, h ≥ 1`: generation never raises when
numbering is disabled or no frame index is supplied; with numbering
enabled and an index, it succeeds exactly when the frame can hold the
rendered counter, i.e. `h ≥ fontH + 2` and
`w ≥ fontW * digits + 2`. -/
theorem C7_thm (o : Oracle) (twopi : ℚ) (g : Gen) (w h : Nat)
    (dark light : Int) (i : Nat) (hm : g.methodIndex < 6) (hw : 1 ≤ w)
    (hh : 1 ≤ h) (hdl : dark < light) :
    ((get_image o twopi g w h dark light none).1).isSome = true ∧
    (g.numbering = false →
      ((get_image o twopi g w h dark light (some i)).1).isSome = true) ∧
    (g.numbering = true →
      (((get_image o twopi g w h dark light (some i)).1).isSome = true ↔
        (fontH + 2 ≤ h ∧ fontW * decimalDigits i + 2 ≤ w))) := by
  have hs : ((strategyRun o twopi g w h dark light).1).isSome = true :=
    (strategyRun_isSome_iff o twopi g w h dark light hm hw hh).mpr
      fun _ => hdl
  obtain ⟨pre, hpre⟩ := Option.isSome_iff_exists.mp hs
  refine ⟨?_, ?_, ?_⟩
  · simp [get_image, hpre]
  · intro hnb
    simp [get_image, hpre, hnb]
  · intro hnb
    by_cases hcond : fontH + 2 ≤ h ∧ fontW * decimalDigits i + 2 ≤ w <;>
      simp [get_image, hpre, hnb, hcond]

/-- Claim C7 witness: on a 20×20 frame with numbering on, generation
succeeds and the glyph box (8×13 for the one-digit index 0) fits. -/
theorem C7_wit :
    ((get_image oZero 1 ⟨4, 0, 0, true⟩ 20 20 0 255 none).1).isSome = true ∧
    ((⟨4, 0, 0, true⟩ : Gen).numbering = false →
      ((get_image oZero 1 ⟨4, 0, 0, true⟩ 20 20 0 255 (some 0)).1).isSome =
        true) ∧
    ((⟨4, 0, 0, true⟩ : Gen).numbering = true →
      (((get_image oZero 1 ⟨4, 0, 0, true⟩ 20 20 0 255 (some 0)).1).isSome =
          true ↔
        (fontH + 2 ≤ 20 ∧ fontW * decimalDigits 0 + 2 ≤ 20))) :=
  C7_thm oZero 1 ⟨4, 0, 0, true⟩ 20 20 0 255 0 (by decide) (by decide)
    (by decide) (by decide)

/-- Claim C10 (confirmed): generating a frame with any selected strategy
other than `sawtooth` (method index 2) leaves the generator state — in
particular the phase counter, hence the sawtooth angle
`thetaSeq twopi thetaCalls` — completely unchanged. -/
theorem C10_thm (o : Oracle) (twopi : ℚ) (g : Gen) (w h : Nat)
    (dark light : Int) (idx : Option Nat) (hm : g.methodIndex ≠ 2) :
    (get_image o twopi g w h dark light idx).2 = g := by
  have h2 : (strategyRun o twopi g w h dark light).2 = g.thetaCalls := by
    unfold strategyRun
    split_ifs <;> rfl
  show ({ g with thetaCalls := (strategyRun o twopi g w h dark light).2 } :
      Gen) = g
  rw [h2]

/-- Claim C10 witness: a `black` frame (method index 4) leaves a
generator state with 7 consumed angles unchanged. -/
theorem C10_wit :
    (get_image oZero 1 ⟨4, 0, 7, true⟩ 3 3 0 255 none).2 =
      (⟨4, 0, 7, true⟩ : Gen) :=
  C10_thm oZero 1 ⟨4, 0, 7, true⟩ 3 3 0 255 none (by decide)

end Microscope
